import Mathlib

/-!
Verification of the restore engine of the etcd-backup-restore sidecar
(package restorer, file restorer.go, plus the restorer-related types of
package types).

The Go code is shallowly embedded: pure computations become Lean
functions over Nat / Int / String / List, goroutine bodies become
explicit state machines processing the list of channel messages they
receive, and every external I/O interaction (object store fetch, file
system, etcd RPCs, decompression) is an explicit environment parameter
recording the outcome the collaborator would return.  Machine integers
(int64) are embedded as Int; byte buffers as List Nat (each entry one
byte value).
-/

namespace EtcdBR

/-! ## Byte-level helpers and SHA-256

The delta-snapshot integrity check (readSnapshotContentsFromReadCloser)
recomputes a SHA-256 over the payload; Go calls crypto/sha256.  SHA-256
(FIPS 180-4) is implemented here over Nat words so that the check is a
real executable function of the buffer bytes. -/

/-- Truncate a Nat to a 32-bit word, as Go uint32 arithmetic does. -/
def w32 (x : Nat) : Nat := x % 4294967296

/-- 32-bit modular addition. -/
def add32 (a b : Nat) : Nat := (a + b) % 4294967296

/-- Rotate a 32-bit word right by n bits. -/
def rotr32 (n x : Nat) : Nat := w32 ((x >>> n) ||| (x <<< (32 - n)))

/-- Exclusive or of three words. -/
def xor3 (a b c : Nat) : Nat := (a ^^^ b) ^^^ c

/-- SHA-256 big Sigma0. -/
def bigSigma0 (x : Nat) : Nat := xor3 (rotr32 2 x) (rotr32 13 x) (rotr32 22 x)

/-- SHA-256 big Sigma1. -/
def bigSigma1 (x : Nat) : Nat := xor3 (rotr32 6 x) (rotr32 11 x) (rotr32 25 x)

/-- SHA-256 small sigma0. -/
def smallSigma0 (x : Nat) : Nat := xor3 (rotr32 7 x) (rotr32 18 x) (x >>> 3)

/-- SHA-256 small sigma1. -/
def smallSigma1 (x : Nat) : Nat := xor3 (rotr32 17 x) (rotr32 19 x) (x >>> 10)

/-- SHA-256 choice function. -/
def chF (x y z : Nat) : Nat := (x &&& y) ^^^ ((x ^^^ 4294967295) &&& z)

/-- SHA-256 majority function. -/
def majF (x y z : Nat) : Nat := ((x &&& y) ^^^ (x &&& z)) ^^^ (y &&& z)

/-- The 64 SHA-256 round constants (FIPS 180-4, written in decimal). -/
def K256 : List Nat :=
  [1116352408, 1899447441, 3049323471, 3921009573, 961987163, 1508970993, 2453635748,
   2870763221, 3624381080, 310598401, 607225278, 1426881987, 1925078388, 2162078206,
   2614888103, 3248222580, 3835390401, 4022224774, 264347078, 604807628, 770255983,
   1249150122, 1555081692, 1996064986, 2554220882, 2821834349, 2952996808, 3210313671,
   3336571891, 3584528711, 113926993, 338241895, 666307205, 773529912, 1294757372,
   1396182291, 1695183700, 1986661051, 2177026350, 2456956037, 2730485921, 2820302411,
   3259730800, 3345764771, 3516065817, 3600352804, 4094571909, 275423344, 430227734,
   506948616, 659060556, 883997877, 958139571, 1322822218, 1537002063, 1747873779,
   1955562222, 2024104815, 2227730452, 2361852424, 2428436474, 2756734187, 3204031479,
   3329325298]

/-- The SHA-256 initial hash value (FIPS 180-4, written in decimal). -/
def H256 : List Nat :=
  [1779033703, 3144134277, 1013904242, 2773480762, 1359893119, 2600822924, 528734635,
   1541459225]

/-- Split a byte list into chunks of the given size (fuel-driven to keep
the recursion structural and kernel-reducible). -/
def chunksGo (size : Nat) : Nat → List Nat → List (List Nat)
  | 0, _ => []
  | _, [] => []
  | fuel + 1, l => l.take size :: chunksGo size fuel (l.drop size)

/-- Split a byte list into chunks of the given size. -/
def chunksOf (size : Nat) (l : List Nat) : List (List Nat) := chunksGo size l.length l

/-- Big-endian 32-bit word from four bytes. -/
def beWord : List Nat → Nat
  | [a, b, c, d] => a * 16777216 + b * 65536 + c * 256 + d
  | _ => 0

/-- Big-endian 64-bit length field (eight bytes) of the bit length. -/
def lenBytes64 (n : Nat) : List Nat :=
  [(n >>> 56) % 256, (n >>> 48) % 256, (n >>> 40) % 256, (n >>> 32) % 256,
   (n >>> 24) % 256, (n >>> 16) % 256, (n >>> 8) % 256, n % 256]

/-- SHA-256 message padding: append the 0x80 byte, zero padding to 56 mod
64 bytes, then the 64-bit big-endian bit length. -/
def sha256Pad (msg : List Nat) : List Nat :=
  msg ++ [128] ++ List.replicate ((64 - ((msg.length + 9) % 64)) % 64) 0 ++ lenBytes64 (8 * msg.length)

/-- Extend the message schedule; the accumulator holds the words produced
so far in reverse order (head is the most recent word). -/
def extendSchedule : Nat → List Nat → List Nat
  | 0, wrev => wrev
  | k + 1, wrev =>
    extendSchedule k
      ((add32 (add32 (smallSigma1 (wrev.getD 1 0)) (wrev.getD 6 0))
              (add32 (smallSigma0 (wrev.getD 14 0)) (wrev.getD 15 0))) :: wrev)

/-- The full 64-word message schedule of one 16-word block. -/
def schedule (ws : List Nat) : List Nat := (extendSchedule 48 ws.reverse).reverse

/-- One SHA-256 compression round on the working state [a,b,c,d,e,f,g,h]. -/
def roundStep (st : List Nat) (kw : Nat × Nat) : List Nat :=
  match st with
  | [a, b, c, d, e, f, g, h] =>
    let t1 := add32 h (add32 (bigSigma1 e) (add32 (chF e f g) (add32 kw.1 kw.2)))
    let t2 := add32 (bigSigma0 a) (majF a b c)
    [add32 t1 t2, a, b, c, add32 d t1, e, f, g]
  | other => other

/-- Compress one 64-byte chunk into the running hash. -/
def compressChunk (h : List Nat) (chunk : List Nat) : List Nat :=
  let w := schedule ((chunksOf 4 chunk).map beWord)
  let st := (K256.zip w).foldl roundStep h
  List.zipWith add32 h st

/-- SHA-256, hash words of a byte message. -/
def sha256Words (msg : List Nat) : List Nat :=
  (chunksOf 64 (sha256Pad msg)).foldl compressChunk H256

/-- Big-endian bytes of one 32-bit word. -/
def wordBytesBE (w : Nat) : List Nat :=
  [(w >>> 24) % 256, (w >>> 16) % 256, (w >>> 8) % 256, w % 256]

/-- SHA-256 digest (32 bytes) of a byte message. -/
def sha256 (msg : List Nat) : List Nat := ((sha256Words msg).map wordBytesBE).flatten

/-- Validation of the SHA-256 embedding against the FIPS 180-4 test
vector for the empty message. -/
theorem sha256_empty_vector :
    sha256 [] =
      [0xe3, 0xb0, 0xc4, 0x42, 0x98, 0xfc, 0x1c, 0x14, 0x9a, 0xfb, 0xf4, 0xc8, 0x99, 0x6f, 0xb9, 0x24,
       0x27, 0xae, 0x41, 0xe4, 0x64, 0x9b, 0x93, 0x4c, 0xa4, 0x95, 0x99, 0x1b, 0x78, 0x52, 0xb8, 0x55] := by
  decide

/-- Validation of the SHA-256 embedding against the FIPS 180-4 test
vector for the three-byte message abc. -/
theorem sha256_abc_vector :
    sha256 [97, 98, 99] =
      [0xba, 0x78, 0x16, 0xbf, 0x8f, 0x01, 0xcf, 0xea, 0x41, 0x41, 0x40, 0xde, 0x5d, 0xae, 0x22, 0x23,
       0xb0, 0x03, 0x61, 0xa3, 0x96, 0x17, 0x7a, 0x9c, 0xb4, 0x10, 0xff, 0x61, 0xf2, 0x00, 0x15, 0xad] := by
  decide

/-! ## Data model

Event mirrors the wrapper of package types around an etcd clientv3
event: the inner etcd event has a type (mvccpb.Event_EventType, PUT = 0
and DELETE = 1 as int32 constants), a key-value with key, value and
mod_revision (int64).  The ingestion timestamp carries no behaviour and
is omitted.  Snapshot mirrors the fields of brtypes.Snapshot that the
restorer reads. -/

/-- An etcd mutation event as decoded from a delta snapshot;
eventType embeds the mvccpb int32 event type (PUT = 0, DELETE = 1). -/
structure Event where
  eventType : Int
  key : String
  value : String
  modRevision : Int
deriving DecidableEq

/-- The fields of a snapshot descriptor used by the restorer. -/
structure Snapshot where
  snapDir : String
  snapName : String
  startRevision : Int
  lastRevision : Int
  compressionSuffix : String
deriving DecidableEq

/-- A snapshot descriptor with Go zero values. -/
def emptySnapshot : Snapshot := ⟨"", "", 0, 0, ""⟩

/-- An operation submitted to a transaction of the etcd KV client:
clientv3.OpPut or clientv3.OpDelete. -/
inductive EtcdOp where
  | put (key value : String)
  | del (key : String)
deriving DecidableEq

/-- The coordination record a fetcher sends to the applier;
snapIndex embeds the Go int (the sentinel value is minus one). -/
structure ApplierInfo where
  snapFilePath : String
  snapIndex : Int
deriving DecidableEq

/-! ## applyEventsToEtcd

applyEventsToEtcd walks the event list accumulating clientv3 operations
into a pending batch ops; when the next event has a modRevision strictly
greater than the last seen one and the last seen one is not 0, the batch
is committed as one transaction and a fresh batch starts; after the loop
the residual batch is committed unconditionally.  The embedding returns
the list of committed transactions (each a list of operations) in commit
order, or the error of the default switch case for an unexpected event
type. -/

/-- The operation built from one event by the switch of
applyEventsToEtcd; errors on an event type other than PUT and DELETE. -/
def eventOp (e : Event) : Except String EtcdOp :=
  if e.eventType = 0 then .ok (.put e.key e.value)
  else if e.eventType = 1 then .ok (.del e.key)
  else .error "unexpected event type"

/-- Specification-side total variant of eventOp, meaningful on events
whose type is PUT or DELETE. -/
def opOf (e : Event) : EtcdOp :=
  if e.eventType = 1 then .del e.key else .put e.key e.value

/-- The loop of applyEventsToEtcd: lastRev is the last seen modRevision
(initially 0), ops the pending batch; the returned list holds every
committed transaction in order, the final entry being the unconditional
residual commit.  When the commit condition holds the pending batch ops
is committed (prepended to the output) and a fresh batch starts with the
op of the current event; otherwise the op joins the pending batch. -/
def applyGo (lastRev : Int) (ops : List EtcdOp) : List Event → Except String (List (List EtcdOp))
  | [] => .ok [ops]
  | e :: rest =>
    if lastRev ≠ 0 ∧ e.modRevision > lastRev then
      match eventOp e with
      | .error m => .error m
      | .ok op => (applyGo e.modRevision [op] rest).map (fun t => ops :: t)
    else
      match eventOp e with
      | .error m => .error m
      | .ok op => applyGo e.modRevision (ops ++ [op]) rest

/-- applyEventsToEtcd performs the operations of the events sequentially,
grouped into transactions by the modRevision rule; the result is the
list of committed transactions. -/
def applyEventsToEtcd (events : List Event) : Except String (List (List EtcdOp)) :=
  applyGo 0 [] events

/-! Specification-side grouping: the maximal runs of adjacent events of
equal modRevision, written from the words of the spec (operations of
equal modRevision commit in one transaction; strictly increasing
modRevision starts a new transaction). -/

/-- Maximal runs of adjacent events sharing a modRevision. -/
def revRuns : List Event → List (List Event)
  | [] => []
  | [e] => [[e]]
  | e :: e2 :: rest =>
    if e.modRevision = e2.modRevision then
      match revRuns (e2 :: rest) with
      | [] => [[e]]
      | g :: gs => (e :: g) :: gs
    else [e] :: revRuns (e2 :: rest)

/-- The leading run of events whose modRevision equals r, and the
remainder of the list. -/
def leadRun (r : Int) : List Event → List Event × List Event
  | [] => ([], [])
  | e :: rest =>
    if e.modRevision = r then
      let p := leadRun r rest
      (e :: p.1, p.2)
    else ([], e :: rest)

/-- Decomposing the run grouping through the leading run of the head. -/
theorem revRuns_eq_leadRun (rest : List Event) : ∀ e : Event,
    revRuns (e :: rest) =
      (e :: (leadRun e.modRevision rest).1) :: revRuns (leadRun e.modRevision rest).2 := by
  induction rest with
  | nil => intro e; simp [revRuns, leadRun]
  | cons e2 rest2 ih =>
    intro e
    by_cases h : e.modRevision = e2.modRevision
    · have h2 : e2.modRevision = e.modRevision := h.symm
      rw [revRuns, if_pos h, ih e2]
      simp [leadRun, h2]
    · have h2 : ¬ e2.modRevision = e.modRevision := fun hh => h hh.symm
      rw [revRuns, if_neg h]
      simp [leadRun, h2]

/-- On an event of type PUT or DELETE the switch cannot fail and builds
the operation opOf. -/
theorem eventOp_valid (e : Event) (h : e.eventType = 0 ∨ e.eventType = 1) :
    eventOp e = .ok (opOf e) := by
  rcases h with h | h <;> simp [eventOp, opOf, h]

/-- The loop of applyEventsToEtcd, started after seeing revision r (not
0), absorbs the leading run of revision r into the pending batch and
then commits one transaction per maximal run, the last one residually. -/
theorem applyGo_runs (events : List Event) : ∀ (r : Int) (ops : List EtcdOp),
    r ≠ 0 →
    (∀ e ∈ events, e.eventType = 0 ∨ e.eventType = 1) →
    (∀ e ∈ events, e.modRevision ≠ 0) →
    List.Chain' (fun a b => a.modRevision ≤ b.modRevision) events →
    (∀ e0, events.head? = some e0 → r ≤ e0.modRevision) →
    applyGo r ops events =
      .ok ((ops ++ ((leadRun r events).1.map opOf)) ::
            (revRuns (leadRun r events).2).map (fun g => g.map opOf)) := by
  induction events with
  | nil => intro r ops _ _ _ _ _; simp [applyGo, leadRun, revRuns]
  | cons e rest ih =>
    intro r ops hr hty hnz hchain hhead
    have hre : r ≤ e.modRevision := hhead e rfl
    have htye : e.eventType = 0 ∨ e.eventType = 1 := hty e (List.mem_cons_self e rest)
    have hty2 : ∀ x ∈ rest, x.eventType = 0 ∨ x.eventType = 1 :=
      fun x hx => hty x (List.mem_cons_of_mem e hx)
    have hnz2 : ∀ x ∈ rest, x.modRevision ≠ 0 :=
      fun x hx => hnz x (List.mem_cons_of_mem e hx)
    have hchain2 : List.Chain' (fun a b => a.modRevision ≤ b.modRevision) rest := hchain.tail
    by_cases heq : e.modRevision = r
    · -- the event continues the current run: no commit, absorb the op
      have hcond : ¬ (r ≠ 0 ∧ e.modRevision > r) := by omega
      have hhead2 : ∀ e0, rest.head? = some e0 → r ≤ e0.modRevision := by
        intro e0 h0
        cases rest with
        | nil => simp at h0
        | cons e2 rest2 =>
          simp at h0
          subst h0
          exact le_trans heq.symm.le (List.chain'_cons.mp hchain).1
      rw [applyGo, if_neg hcond]
      simp only [eventOp_valid e htye]
      rw [heq, ih r (ops ++ [opOf e]) hr hty2 hnz2 hchain2 hhead2]
      have hlr : leadRun r (e :: rest) = (e :: (leadRun r rest).1, (leadRun r rest).2) := by
        simp [leadRun, heq]
      rw [hlr]
      simp [List.append_assoc]
    · -- strictly larger revision: commit the pending batch, start fresh
      have hgt : e.modRevision > r := lt_of_le_of_ne hre (fun hh => heq hh.symm)
      have hcond : r ≠ 0 ∧ e.modRevision > r := ⟨hr, hgt⟩
      have hnze : e.modRevision ≠ 0 := hnz e (List.mem_cons_self e rest)
      have hhead2 : ∀ e0, rest.head? = some e0 → e.modRevision ≤ e0.modRevision := by
        intro e0 h0
        cases rest with
        | nil => simp at h0
        | cons e2 rest2 =>
          simp at h0
          subst h0
          exact (List.chain'_cons.mp hchain).1
      rw [applyGo, if_pos hcond]
      simp only [eventOp_valid e htye]
      rw [ih e.modRevision [opOf e] hnze hty2 hnz2 hchain2 hhead2]
      have hlr : leadRun r (e :: rest) = ([], e :: rest) := by
        simp [leadRun, heq]
      rw [hlr, revRuns_eq_leadRun rest e]
      simp [Except.map]

/-! ## applyFirstDeltaSnapshot and the per-delta verification

applyFirstDeltaSnapshot fetches, reads and decodes the first delta
snapshot, then asks the transient etcd for its latest revision (a Get
with WithLastRev); those I/O steps are handled by external collaborators
and their successful outcome enters the embedding as the decoded event
list and the revision etcdLastRevision.  The overlap policy itself is
embedded below.  verifySnapshotRevision asks etcd for the revision of
its response header (Get on key foo); that revision enters the embedding
as the parameter etcdRevision. -/

/-- An event with Go zero values (used as the default of list lookups). -/
def emptyEvent : Event := ⟨0, "", "", 0⟩

/-- The loop of applyFirstDeltaSnapshot computing newRevisionIndex: the
index of the first event whose modRevision exceeds lastRevision, and the
Go zero value 0 when no event does; i is the index of the head of the
remaining list. -/
def newRevisionIndexAux (lastRevision : Int) : List Event → Nat → Nat
  | [], _ => 0
  | e :: rest, i =>
    if e.modRevision > lastRevision then i
    else newRevisionIndexAux lastRevision rest (i + 1)

/-- The newRevisionIndex computed by applyFirstDeltaSnapshot. -/
def newRevisionIndexOf (lastRevision : Int) (events : List Event) : Nat :=
  newRevisionIndexAux lastRevision events 0

/-- The overlap policy of applyFirstDeltaSnapshot: when the latest etcd
revision equals the lastRevision of the first delta the delta is skipped
(no transaction committed, embedded as the empty commit list); otherwise
the events from newRevisionIndex on are applied. -/
def applyFirstDeltaSnapshot (etcdLastRevision : Int) (snap : Snapshot) (events : List Event) :
    Except String (List (List EtcdOp)) :=
  if etcdLastRevision = snap.lastRevision then .ok []
  else applyEventsToEtcd (events.drop (newRevisionIndexOf etcdLastRevision events))

/-- verifySnapshotRevision compares the lastRevision recorded in the
snapshot descriptor with the revision etcd reports and fails on
mismatch. -/
def verifySnapshotRevision (etcdRevision : Int) (snap : Snapshot) : Except String Unit :=
  if snap.lastRevision ≠ etcdRevision then
    .error "mismatched event revision while applying delta snapshot"
  else .ok ()

/-- applyEventsAndVerify applies the events of one delta snapshot and
then verifies the snapshot revision against etcd. -/
def applyEventsAndVerify (etcdRevision : Int) (events : List Event) (snap : Snapshot) :
    Except String Unit :=
  match applyEventsToEtcd events with
  | .error m => .error ("failed to apply events to etcd for delta snapshot: " ++ m)
  | .ok _ =>
    match verifySnapshotRevision etcdRevision snap with
    | .error m => .error ("snapshot revision verification failed for delta snapshot: " ++ m)
    | .ok _ => .ok ()

/-- When some event of the list has modRevision above R, the loop of
applyFirstDeltaSnapshot returns the offset of the first such event. -/
theorem newRevisionIndexAux_spec (events : List Event) : ∀ (R : Int) (j i : Nat),
    j < events.length →
    (∀ k, k < j → ¬ R < (events.getD k emptyEvent).modRevision) →
    R < (events.getD j emptyEvent).modRevision →
    newRevisionIndexAux R events i = i + j := by
  induction events with
  | nil => intro R j i hj _ _; simp at hj
  | cons e rest ih =>
    intro R j i hj hsmall hgt
    cases j with
    | zero =>
      simp at hgt
      simp [newRevisionIndexAux, hgt]
    | succ j2 =>
      have h0 : ¬ R < e.modRevision := by
        have := hsmall 0 (Nat.succ_pos j2)
        simpa using this
      rw [newRevisionIndexAux, if_neg h0]
      have hj2 : j2 < rest.length := by simpa [Nat.succ_lt_succ_iff] using hj
      have hsmall2 : ∀ k, k < j2 → ¬ R < (rest.getD k emptyEvent).modRevision := by
        intro k hk
        have := hsmall (k + 1) (Nat.succ_lt_succ hk)
        simpa using this
      have hgt2 : R < (rest.getD j2 emptyEvent).modRevision := by simpa using hgt
      rw [ih R j2 (i + 1) hj2 hsmall2 hgt2]
      omega

/-! ## Claim theorems C1, C3, C5 -/

/-- Events used to refute the universal grouping sentence of C1: the
first and third event share modRevision 1, separated by an event of
modRevision 2. -/
def eventsEqualRevSplit : List Event :=
  [⟨0, "a", "1", 1⟩, ⟨0, "b", "2", 2⟩, ⟨0, "c", "3", 1⟩]

/-- C1, counterexample: the claim quantifies over every event list, but
on the (non-monotone) list eventsEqualRevSplit the two events of equal
modRevision 1 commit in different transactions: the run yields the
transactions [[put a 1], [put b 2, put c 3]] and no single transaction
holds both the op of the first event and the op of the third. -/
theorem applyEventsToEtcd_equalRev_split :
    applyEventsToEtcd eventsEqualRevSplit =
      .ok [[.put "a" "1"], [.put "b" "2", .put "c" "3"]] ∧
    ¬ ∃ t ∈ [[EtcdOp.put "a" "1"], [EtcdOp.put "b" "2", EtcdOp.put "c" "3"]],
        EtcdOp.put "a" "1" ∈ t ∧ EtcdOp.put "c" "3" ∈ t := by
  constructor
  · rfl
  · decide

/-- C1 (amended): applyEventsToEtcd applies the events of a delta in
list order, grouping them into transactions: operations accumulate into
a pending batch, a strictly larger modRevision (with a nonzero last seen
modRevision) commits the batch and starts a new one, and the residual
batch is committed unconditionally.  Hence for every nonempty event list
whose modRevisions are nonzero and non-decreasing, the committed
transactions are exactly the maximal runs of equal modRevision: events
of equal modRevision commit in the same transaction and a strictly
increasing modRevision starts a new one. -/
theorem applyEventsToEtcd_txn_grouping (events : List Event)
    (hne : events ≠ [])
    (hty : ∀ e ∈ events, e.eventType = 0 ∨ e.eventType = 1)
    (hnz : ∀ e ∈ events, e.modRevision ≠ 0)
    (hmono : List.Chain' (fun a b => a.modRevision ≤ b.modRevision) events) :
    applyEventsToEtcd events = .ok ((revRuns events).map (fun g => g.map opOf)) := by
  cases events with
  | nil => exact absurd rfl hne
  | cons e rest =>
    have htye : e.eventType = 0 ∨ e.eventType = 1 := hty e (List.mem_cons_self e rest)
    have hnze : e.modRevision ≠ 0 := hnz e (List.mem_cons_self e rest)
    have hty2 : ∀ x ∈ rest, x.eventType = 0 ∨ x.eventType = 1 :=
      fun x hx => hty x (List.mem_cons_of_mem e hx)
    have hnz2 : ∀ x ∈ rest, x.modRevision ≠ 0 :=
      fun x hx => hnz x (List.mem_cons_of_mem e hx)
    have hhead2 : ∀ e0, rest.head? = some e0 → e.modRevision ≤ e0.modRevision := by
      intro e0 h0
      cases rest with
      | nil => simp at h0
      | cons e2 rest2 =>
        simp at h0
        subst h0
        exact (List.chain'_cons.mp hmono).1
    rw [applyEventsToEtcd, applyGo, if_neg (by simp)]
    simp only [eventOp_valid e htye, List.nil_append]
    rw [applyGo_runs rest e.modRevision [opOf e] hnze hty2 hnz2 hmono.tail hhead2]
    rw [revRuns_eq_leadRun rest e]
    simp

/-- Events witnessing the amended C1 grouping theorem on a concrete
monotone input. -/
def eventsGroupingWitnessInput : List Event :=
  [⟨0, "a", "1", 4⟩, ⟨1, "a", "", 4⟩, ⟨0, "b", "2", 5⟩]

/-- Witness for the amended C1 theorem at a concrete event list. -/
theorem applyEventsToEtcd_txn_grouping_witness :
    applyEventsToEtcd eventsGroupingWitnessInput =
      .ok ((revRuns eventsGroupingWitnessInput).map (fun g => g.map opOf)) :=
  applyEventsToEtcd_txn_grouping eventsGroupingWitnessInput (by decide) (by decide) (by decide)
    (by simp only [eventsGroupingWitnessInput, List.chain'_cons, List.chain'_singleton]; decide)

/-- C3: applyFirstDeltaSnapshot queries the latest etcd revision R and,
when R equals the lastRevision of the first delta, skips the delta
entirely (no events applied); otherwise, when j is the smallest index of
an event with modRevision above R, it applies exactly the suffix of the
events from j on. -/
theorem applyFirstDeltaSnapshot_overlap (R : Int) (snap : Snapshot) (events : List Event)
    (j : Nat) (hj : j < events.length)
    (hsmall : ∀ k, k < j → (events.getD k emptyEvent).modRevision ≤ R)
    (hgt : R < (events.getD j emptyEvent).modRevision) :
    (R = snap.lastRevision → applyFirstDeltaSnapshot R snap events = .ok []) ∧
    (R ≠ snap.lastRevision →
      applyFirstDeltaSnapshot R snap events = applyEventsToEtcd (events.drop j)) := by
  constructor
  · intro h; simp [applyFirstDeltaSnapshot, h]
  · intro h
    have hidx : newRevisionIndexOf R events = j := by
      have := newRevisionIndexAux_spec events R j 0 hj
        (fun k hk => not_lt.mpr (hsmall k hk)) hgt
      simpa [newRevisionIndexOf] using this
    simp [applyFirstDeltaSnapshot, h, hidx]

/-- Witness for C3 at a concrete revision and event list. -/
theorem applyFirstDeltaSnapshot_overlap_witness :
    (5 = (Snapshot.mk "d" "n" 3 5 "").lastRevision →
      applyFirstDeltaSnapshot 5 (Snapshot.mk "d" "n" 3 5 "")
        [⟨0, "a", "", 5⟩, ⟨0, "b", "", 6⟩] = .ok []) ∧
    ((5 : Int) ≠ (Snapshot.mk "d" "n" 3 5 "").lastRevision →
      applyFirstDeltaSnapshot 5 (Snapshot.mk "d" "n" 3 5 "")
        [⟨0, "a", "", 5⟩, ⟨0, "b", "", 6⟩] =
        applyEventsToEtcd ([Event.mk 0 "a" "" 5, Event.mk 0 "b" "" 6].drop 1)) :=
  applyFirstDeltaSnapshot_overlap 5 (Snapshot.mk "d" "n" 3 5 "")
    [⟨0, "a", "", 5⟩, ⟨0, "b", "", 6⟩] 1 (by decide)
    (by intro k hk; interval_cases k; decide) (by decide)

/-- C5: after applying a delta snapshot whose last event has modRevision
L (recorded as the lastRevision of its descriptor), the engine queries
etcd and fails with a revision-mismatch error exactly when the reported
header revision differs from L; on a match the delta passes
verification. -/
theorem applyEventsAndVerify_revisionCheck (etcdRevision L : Int) (events : List Event)
    (snap : Snapshot) (lastE : Event) (txns : List (List EtcdOp))
    (hlast : events.getLast? = some lastE) (hL : lastE.modRevision = L)
    (hsnap : snap.lastRevision = L)
    (happly : applyEventsToEtcd events = .ok txns) :
    (etcdRevision = L → applyEventsAndVerify etcdRevision events snap = .ok ()) ∧
    (etcdRevision ≠ L →
      ∃ m, applyEventsAndVerify etcdRevision events snap = .error m) := by
  constructor
  · intro h
    simp [applyEventsAndVerify, happly, verifySnapshotRevision, hsnap, h]
  · intro h
    have h2 : snap.lastRevision ≠ etcdRevision := by
      rw [hsnap]; exact fun hh => h hh.symm
    refine ⟨"snapshot revision verification failed for delta snapshot: " ++
      "mismatched event revision while applying delta snapshot", ?_⟩
    simp [applyEventsAndVerify, happly, verifySnapshotRevision, h2]

/-- Witness for C5 at a concrete delta snapshot and etcd revision. -/
theorem applyEventsAndVerify_revisionCheck_witness :
    ((3 : Int) = 3 →
      applyEventsAndVerify 3 [⟨0, "k", "v", 3⟩] (Snapshot.mk "d" "n" 1 3 "") = .ok ()) ∧
    ((3 : Int) ≠ 3 →
      ∃ m, applyEventsAndVerify 3 [⟨0, "k", "v", 3⟩] (Snapshot.mk "d" "n" 1 3 "") = .error m) :=
  applyEventsAndVerify_revisionCheck 3 3 [⟨0, "k", "v", 3⟩] (Snapshot.mk "d" "n" 1 3 "")
    ⟨0, "k", "v", 3⟩ [[.put "k" "v"]] (by decide) (by decide) (by decide) (by rfl)

/-! ## applySnaps: the ordered applier

applySnaps is a goroutine receiving ApplierInfo messages; it buffers the
temp-file path of each fetched delta at its index in pathList and
applies deltas strictly in index order, tracking the number of deltas
applied (initialised to 1 for the synchronously applied first delta) and
whether the previous attempt to make etcd lean failed.  The embedding is
a state machine: applySnapsStep processes one received message,
applySnapsRun a list of messages in arrival order.  External I/O enters
through ApplierEnv: readEvents j is the outcome of reading, verifying
and JSON-decoding the temp file of delta j, etcdRevisionAfter j the
header revision etcd reports after delta j is applied, and leanSucceeds
j the outcome of the MakeEtcdLeanAndCheckAlarm call issued after delta
j.  The state carries leanCalls, a ghost trace of the revisions passed
to MakeEtcdLeanAndCheckAlarm, for observability only.  Sends on the
error channel appear as the errSent and nilSent outcomes; a stopCh close
is modelled by the end of the message list. -/

/-- External outcomes consumed by the applier. -/
structure ApplierEnv where
  readEvents : Nat → Except String (List Event)
  etcdRevisionAfter : Nat → Int
  leanSucceeds : Nat → Bool

/-- The local state of applySnaps. -/
structure ApplySnapsState where
  pathList : List String
  nextSnapIndexToApply : Nat
  numberOfDeltaSnapApplied : Nat
  prevAttemptToMakeEtcdLeanFailed : Bool
  leanCalls : List Int
deriving DecidableEq

/-- What the applier does in reaction to messages: send an error on the
error channel and return, send nil on the error channel and return
(restore finished), return silently (sentinel index), keep running with
a new state, or hit a Go runtime panic (out-of-range index write). -/
inductive ApplierOutcome where
  | errSent (msg : String) (s : ApplySnapsState)
  | nilSent (s : ApplySnapsState)
  | stopped (s : ApplySnapsState)
  | running (s : ApplySnapsState)
  | panicked
deriving DecidableEq

/-- The interval of delta applications between two lean calls. -/
def periodicallyMakeEtcdLeanDeltaSnapshotInterval : Nat := 10

/-- The inner for loop of applySnaps: starting at index curr (equal to
nextSnapIndexToApply), apply consecutive deltas while their path is
buffered; each success advances nextSnapIndexToApply, and completion
(nextSnapIndexToApply reaching the number of remaining snapshots) sends
nil on the error channel; otherwise the applied counter increments and
the lean keeper is invoked when the counter is divisible by the interval
or the previous lean attempt failed, a lean failure only setting the
retry flag.  The fuel is the remaining iteration bound of the for loop. -/
def applyLoopGo (env : ApplierEnv) (snaps : List Snapshot) :
    Nat → Nat → ApplySnapsState → ApplierOutcome
  | 0, _, s => .running s
  | fuel + 1, curr, s =>
    if curr < snaps.length then
      if s.pathList.getD curr "" = "" then .running s
      else
        match env.readEvents curr with
        | .error m => .errSent ("failed to read events data from delta snapshot file: " ++ m) s
        | .ok events =>
          match applyEventsAndVerify (env.etcdRevisionAfter curr) events
              (snaps.getD curr emptySnapshot) with
          | .error m => .errSent m s
          | .ok _ =>
            let s1 : ApplySnapsState :=
              { s with nextSnapIndexToApply := s.nextSnapIndexToApply + 1 }
            if s1.nextSnapIndexToApply = snaps.length then .nilSent s1
            else
              let s2 : ApplySnapsState :=
                { s1 with numberOfDeltaSnapApplied := s1.numberOfDeltaSnapApplied + 1 }
              if s2.numberOfDeltaSnapApplied % periodicallyMakeEtcdLeanDeltaSnapshotInterval = 0
                  ∨ s2.prevAttemptToMakeEtcdLeanFailed = true then
                let s3 : ApplySnapsState :=
                  { s2 with leanCalls :=
                      s2.leanCalls ++ [(snaps.getD curr emptySnapshot).lastRevision] }
                if env.leanSucceeds curr then
                  applyLoopGo env snaps fuel (curr + 1)
                    { s3 with prevAttemptToMakeEtcdLeanFailed := false }
                else
                  applyLoopGo env snaps fuel (curr + 1)
                    { s3 with prevAttemptToMakeEtcdLeanFailed := true }
              else applyLoopGo env snaps fuel (curr + 1) s2
    else .running s

/-- One iteration of the receive loop of applySnaps: the sentinel index
terminates silently; otherwise the path is stored at the index in
pathList (a Go panic when the index is out of range), an index below
nextSnapIndexToApply sends the mismatch error, an index equal to it
enters the application loop, and a higher index only buffers. -/
def applySnapsStep (env : ApplierEnv) (snaps : List Snapshot) (s : ApplySnapsState)
    (info : ApplierInfo) : ApplierOutcome :=
  if info.snapIndex = -1 then .stopped s
  else if 0 ≤ info.snapIndex ∧ info.snapIndex < (snaps.length : Int) then
    if info.snapIndex < (s.nextSnapIndexToApply : Int) then
      .errSent "snap index mismatch for delta snapshot"
        { s with pathList := s.pathList.set info.snapIndex.toNat info.snapFilePath }
    else if info.snapIndex.toNat = s.nextSnapIndexToApply then
      applyLoopGo env snaps (snaps.length - info.snapIndex.toNat) info.snapIndex.toNat
        { s with pathList := s.pathList.set info.snapIndex.toNat info.snapFilePath }
    else .running { s with pathList := s.pathList.set info.snapIndex.toNat info.snapFilePath }
  else .panicked

/-- The receive loop of applySnaps over the list of messages arriving on
the applier channel. -/
def applySnapsRun (env : ApplierEnv) (snaps : List Snapshot) :
    ApplySnapsState → List ApplierInfo → ApplierOutcome
  | s, [] => .running s
  | s, i :: rest =>
    match applySnapsStep env snaps s i with
    | .running s1 => applySnapsRun env snaps s1 rest
    | out => out

/-- The initial applier state: no paths buffered, next index 0, applied
counter 1 (the first delta was applied synchronously), no failed lean
attempt. -/
def initialApplySnapsState (numSnaps : Nat) : ApplySnapsState :=
  ⟨List.replicate numSnaps "", 0, 1, false, []⟩

/-- The first index at and after k whose path is not buffered in pl, the
length of pl when the paths from k on are all buffered; the fuel mirrors
the iteration bound of the application loop. -/
def firstGapAux (pl : List String) : Nat → Nat → Nat
  | 0, k => k
  | fuel + 1, k =>
    if k < pl.length ∧ pl.getD k "" ≠ "" then firstGapAux pl fuel (k + 1) else k

/-- The first non-buffered index at or after k. -/
def firstGapFrom (pl : List String) (k : Nat) : Nat := firstGapAux pl (pl.length - k) k

/-- An applier environment is benign when reading and applying every
delta succeeds. -/
def benign (env : ApplierEnv) (snaps : List Snapshot) : Prop :=
  ∀ j, j < snaps.length →
    ∃ evs, env.readEvents j = .ok evs ∧
      applyEventsAndVerify (env.etcdRevisionAfter j) evs (snaps.getD j emptySnapshot) = .ok ()

/-- Under a benign environment the application loop, entered at the
index nextSnapIndexToApply, applies the consecutively buffered deltas:
it ends running with nextSnapIndexToApply at the first non-buffered
index when one exists below the snapshot count, and sends nil on the
error channel when the buffered block reaches the snapshot count. -/
theorem applyLoopGo_benign (env : ApplierEnv) (snaps : List Snapshot) :
    ∀ (fuel curr : Nat) (s : ApplySnapsState),
    curr < snaps.length →
    s.nextSnapIndexToApply = curr →
    s.pathList.length = snaps.length →
    fuel + curr = snaps.length →
    benign env snaps →
    (firstGapAux s.pathList fuel curr < snaps.length →
      ∃ s2, applyLoopGo env snaps fuel curr s = .running s2 ∧
        s2.nextSnapIndexToApply = firstGapAux s.pathList fuel curr ∧
        s2.pathList = s.pathList) ∧
    (firstGapAux s.pathList fuel curr = snaps.length →
      ∃ s2, applyLoopGo env snaps fuel curr s = .nilSent s2 ∧
        s2.nextSnapIndexToApply = snaps.length) := by
  intro fuel
  induction fuel with
  | zero =>
    intro curr s hcur hnext hlen hfuel hben
    omega
  | succ f ih =>
    intro curr s hcur hnext hlen hfuel hben
    by_cases hpath : s.pathList.getD curr "" = ""
    · have hgap : firstGapAux s.pathList (f + 1) curr = curr := by
        rw [firstGapAux,
          if_neg (by simp only [not_and, ne_eq, not_not]; intro _; exact hpath)]
      have hrun : applyLoopGo env snaps (f + 1) curr s = .running s := by
        rw [applyLoopGo, if_pos hcur, if_pos hpath]
      rw [hgap, hrun]
      constructor
      · intro _
        exact ⟨s, rfl, hnext.symm ▸ rfl, rfl⟩
      · intro h
        omega
    · obtain ⟨evs, hread, happ⟩ := hben curr hcur
      have hgap : firstGapAux s.pathList (f + 1) curr = firstGapAux s.pathList f (curr + 1) := by
        rw [firstGapAux, if_pos ⟨by omega, hpath⟩]
      by_cases hdone : curr + 1 = snaps.length
      · -- the loop applies the last delta and signals completion
        have hf0 : f = 0 := by omega
        subst hf0
        have hrun : applyLoopGo env snaps 1 curr s =
            .nilSent { s with nextSnapIndexToApply := s.nextSnapIndexToApply + 1 } := by
          rw [applyLoopGo, if_pos hcur, if_neg hpath]
          simp only [hread, happ]
          rw [if_pos (by simp [hnext, hdone])]
        rw [hgap, hrun]
        have hgap2 : firstGapAux s.pathList 0 (curr + 1) = curr + 1 := rfl
        rw [hgap2]
        constructor
        · intro hlt
          omega
        · intro _
          exact ⟨_, rfl, by simp [hnext, hdone]⟩
      · -- more deltas remain: the loop continues at the next index
        have hcur2 : curr + 1 < snaps.length := by omega
        have hnotdone : ¬ ({ s with nextSnapIndexToApply := s.nextSnapIndexToApply + 1
            : ApplySnapsState }).nextSnapIndexToApply = snaps.length := by
          simp [hnext, hdone]
        have step : ∀ s4 : ApplySnapsState, s4.nextSnapIndexToApply = curr + 1 →
            s4.pathList = s.pathList →
            (firstGapAux s.pathList f (curr + 1) < snaps.length →
              ∃ s2, applyLoopGo env snaps f (curr + 1) s4 = .running s2 ∧
                s2.nextSnapIndexToApply = firstGapAux s.pathList f (curr + 1) ∧
                s2.pathList = s.pathList) ∧
            (firstGapAux s.pathList f (curr + 1) = snaps.length →
              ∃ s2, applyLoopGo env snaps f (curr + 1) s4 = .nilSent s2 ∧
                s2.nextSnapIndexToApply = snaps.length) := by
          intro s4 h4n h4p
          have h4l : s4.pathList.length = snaps.length := by rw [h4p]; exact hlen
          have := ih (curr + 1) s4 hcur2 h4n h4l (by omega) hben
          rw [h4p] at this
          exact this
        rw [hgap]
        by_cases hlean : ({ s with
              nextSnapIndexToApply := s.nextSnapIndexToApply + 1,
              numberOfDeltaSnapApplied := s.numberOfDeltaSnapApplied + 1
              : ApplySnapsState }).numberOfDeltaSnapApplied %
              periodicallyMakeEtcdLeanDeltaSnapshotInterval = 0 ∨
            ({ s with
              nextSnapIndexToApply := s.nextSnapIndexToApply + 1,
              numberOfDeltaSnapApplied := s.numberOfDeltaSnapApplied + 1
              : ApplySnapsState }).prevAttemptToMakeEtcdLeanFailed = true
        · by_cases hls : env.leanSucceeds curr
          · have hrun : applyLoopGo env snaps (f + 1) curr s =
                applyLoopGo env snaps f (curr + 1)
                  { s with
                    nextSnapIndexToApply := s.nextSnapIndexToApply + 1,
                    numberOfDeltaSnapApplied := s.numberOfDeltaSnapApplied + 1,
                    leanCalls := s.leanCalls ++ [(snaps.getD curr emptySnapshot).lastRevision],
                    prevAttemptToMakeEtcdLeanFailed := false } := by
              rw [applyLoopGo, if_pos hcur, if_neg hpath]
              simp only [hread, happ]
              rw [if_neg hnotdone, if_pos hlean, if_pos hls]
            rw [hrun]
            exact step _ (by simp [hnext]) rfl
          · have hrun : applyLoopGo env snaps (f + 1) curr s =
                applyLoopGo env snaps f (curr + 1)
                  { s with
                    nextSnapIndexToApply := s.nextSnapIndexToApply + 1,
                    numberOfDeltaSnapApplied := s.numberOfDeltaSnapApplied + 1,
                    leanCalls := s.leanCalls ++ [(snaps.getD curr emptySnapshot).lastRevision],
                    prevAttemptToMakeEtcdLeanFailed := true } := by
              rw [applyLoopGo, if_pos hcur, if_neg hpath]
              simp only [hread, happ]
              rw [if_neg hnotdone, if_pos hlean, if_neg hls]
            rw [hrun]
            exact step _ (by simp [hnext]) rfl
        · have hrun : applyLoopGo env snaps (f + 1) curr s =
              applyLoopGo env snaps f (curr + 1)
                { s with
                  nextSnapIndexToApply := s.nextSnapIndexToApply + 1,
                  numberOfDeltaSnapApplied := s.numberOfDeltaSnapApplied + 1 } := by
            rw [applyLoopGo, if_pos hcur, if_neg hpath]
            simp only [hread, happ]
            rw [if_neg hnotdone, if_neg hlean]
          rw [hrun]
          exact step _ (by simp [hnext]) rfl

/-! ## Claim theorems C2 and C7 -/

/-- C2: the applier applies the remaining deltas strictly in ascending
index order, regardless of the arrival order of ApplierInfo messages:
a message whose (non-negative) index is below nextSnapIndexToApply
sends an ordering error on the error channel and terminates; a message
with a higher index only buffers its path; a message at
nextSnapIndexToApply makes the applier apply deltas while consecutive
buffered paths exist, ending at the first non-buffered index, and when
nextSnapIndexToApply reaches the number of remaining deltas nil is sent
on the error channel. -/
theorem applySnaps_ordering (env : ApplierEnv) (snaps : List Snapshot) (s : ApplySnapsState)
    (path : String) (idx : Nat)
    (hlen : s.pathList.length = snaps.length) (hidx : idx < snaps.length) :
    (idx < s.nextSnapIndexToApply →
      ∃ m s2, applySnapsStep env snaps s ⟨path, (idx : Int)⟩ = .errSent m s2) ∧
    (s.nextSnapIndexToApply < idx →
      applySnapsStep env snaps s ⟨path, (idx : Int)⟩ =
        .running { s with pathList := s.pathList.set idx path }) ∧
    (idx = s.nextSnapIndexToApply → benign env snaps →
      (firstGapFrom (s.pathList.set idx path) idx < snaps.length →
        ∃ s2, applySnapsStep env snaps s ⟨path, (idx : Int)⟩ = .running s2 ∧
          s2.nextSnapIndexToApply = firstGapFrom (s.pathList.set idx path) idx) ∧
      (firstGapFrom (s.pathList.set idx path) idx = snaps.length →
        ∃ s2, applySnapsStep env snaps s ⟨path, (idx : Int)⟩ = .nilSent s2 ∧
          s2.nextSnapIndexToApply = snaps.length)) := by
  have hne : ¬ ((idx : Int) = -1) := by omega
  have hlen2 : (idx : Int) < (snaps.length : Int) := by exact_mod_cast hidx
  refine ⟨?_, ?_, ?_⟩
  · intro hlt
    have hlt2 : (idx : Int) < (s.nextSnapIndexToApply : Int) := by omega
    exact ⟨"snap index mismatch for delta snapshot",
      { s with pathList := s.pathList.set idx path },
      by simp [applySnapsStep, hne, hidx, hlen2, hlt, hlt2]⟩
  · intro hgt
    have h1 : ¬ ((idx : Int) < (s.nextSnapIndexToApply : Int)) := by omega
    have h1n : ¬ (idx < s.nextSnapIndexToApply) := by omega
    have h2 : ¬ (idx = s.nextSnapIndexToApply) := by omega
    simp [applySnapsStep, hne, hidx, hlen2, h1, h1n, h2]
  · intro heq hben
    have hidx2 : s.nextSnapIndexToApply < snaps.length := heq ▸ hidx
    have hlen3 : ((s.nextSnapIndexToApply : Int)) < (snaps.length : Int) := by omega
    have hstep : applySnapsStep env snaps s ⟨path, (idx : Int)⟩ =
        applyLoopGo env snaps (snaps.length - idx) idx
          { s with pathList := s.pathList.set idx path } := by
      simp [applySnapsStep, hne, hidx, hlen2, hidx2, hlen3, heq]
    have hchar := applyLoopGo_benign env snaps (snaps.length - idx) idx
      { s with pathList := s.pathList.set idx path } hidx heq.symm
      (by simp [hlen]) (by omega) hben
    rw [hstep]
    have hgapfrom : firstGapFrom (s.pathList.set idx path) idx =
        firstGapAux (s.pathList.set idx path) (snaps.length - idx) idx := by
      rw [firstGapFrom]
      congr 1
      simp [hlen]
    rw [hgapfrom]
    exact ⟨fun h => (hchar.1 h).imp (fun s2 hh => ⟨hh.1, hh.2.1⟩), hchar.2⟩

/-- A benign applier environment used in the C2 witness: every delta
decodes to one put event at revision 5 and etcd reports revision 5. -/
def applierEnvBenign : ApplierEnv :=
  ⟨fun _ => .ok [⟨0, "k", "v", 5⟩], fun _ => 5, fun _ => true⟩

/-- The two remaining delta snapshots used in the C2 witness. -/
def snapsTwo : List Snapshot := [⟨"d", "inc1", 4, 5, ""⟩, ⟨"d", "inc2", 6, 5, ""⟩]

/-- Witness for C2: the ordering characterisation at a concrete state
and message (index 1 arriving while nextSnapIndexToApply is 0). -/
theorem applySnaps_ordering_witness :
    ((1 : Nat) < (initialApplySnapsState 2).nextSnapIndexToApply →
      ∃ m s2, applySnapsStep applierEnvBenign snapsTwo (initialApplySnapsState 2)
        ⟨"p1", (1 : Int)⟩ = .errSent m s2) ∧
    ((initialApplySnapsState 2).nextSnapIndexToApply < 1 →
      applySnapsStep applierEnvBenign snapsTwo (initialApplySnapsState 2) ⟨"p1", (1 : Int)⟩ =
        .running { initialApplySnapsState 2 with
          pathList := (initialApplySnapsState 2).pathList.set 1 "p1" }) ∧
    ((1 : Nat) = (initialApplySnapsState 2).nextSnapIndexToApply →
      benign applierEnvBenign snapsTwo →
      (firstGapFrom ((initialApplySnapsState 2).pathList.set 1 "p1") 1 < snapsTwo.length →
        ∃ s2, applySnapsStep applierEnvBenign snapsTwo (initialApplySnapsState 2)
            ⟨"p1", (1 : Int)⟩ = .running s2 ∧
          s2.nextSnapIndexToApply =
            firstGapFrom ((initialApplySnapsState 2).pathList.set 1 "p1") 1) ∧
      (firstGapFrom ((initialApplySnapsState 2).pathList.set 1 "p1") 1 = snapsTwo.length →
        ∃ s2, applySnapsStep applierEnvBenign snapsTwo (initialApplySnapsState 2)
            ⟨"p1", (1 : Int)⟩ = .nilSent s2 ∧
          s2.nextSnapIndexToApply = snapsTwo.length)) :=
  applySnaps_ordering applierEnvBenign snapsTwo (initialApplySnapsState 2) "p1" 1
    (by decide) (by decide)

/-- The applier environment of the C7 counterexample: reading and
applying the single remaining delta succeeds. -/
def applierEnvFinalDelta : ApplierEnv :=
  ⟨fun _ => .ok [⟨0, "k", "v", 5⟩], fun _ => 5, fun _ => true⟩

/-- The single remaining delta snapshot of the C7 counterexample. -/
def snapsFinalDelta : List Snapshot := [⟨"d", "inc1", 4, 5, ""⟩]

/-- C7, counterexample: with one remaining delta, the applier receives
its path, applies it successfully and sends nil on the error channel,
yet numberOfDeltaSnapApplied remains at its initial value 1 and no lean
call is recorded: the counter is not incremented after the successful
application that completes the restore, refuting the claim that the
counter increments after every successful delta application. -/
theorem applySnaps_finalDelta_counter :
    applySnapsRun applierEnvFinalDelta snapsFinalDelta (initialApplySnapsState 1)
      [⟨"p", (0 : Int)⟩] = .nilSent ⟨["p"], 1, 1, false, []⟩ := by
  decide

/-- C7 (amended): after every successful delta application except the
final one (after which completion is signalled at once and the counter
is not touched), the applier increments its applied-delta counter,
which starts at 1 to account for the synchronously applied first delta;
the lean keeper is invoked exactly when the incremented counter is
divisible by 10 or the previous lean attempt failed; a failure of the
lean call does not abort the restore (the loop continues to the next
delta) and only sets the retry flag. -/
theorem applySnaps_leanKeeper (env : ApplierEnv) (snaps : List Snapshot)
    (fuel curr : Nat) (s : ApplySnapsState) (evs : List Event)
    (hcur : curr < snaps.length)
    (hpath : s.pathList.getD curr "" ≠ "")
    (hread : env.readEvents curr = .ok evs)
    (happly : applyEventsAndVerify (env.etcdRevisionAfter curr) evs
      (snaps.getD curr emptySnapshot) = .ok ())
    (hnonfinal : s.nextSnapIndexToApply + 1 ≠ snaps.length) :
    ∃ s2, applyLoopGo env snaps (fuel + 1) curr s = applyLoopGo env snaps fuel (curr + 1) s2 ∧
      s2.numberOfDeltaSnapApplied = s.numberOfDeltaSnapApplied + 1 ∧
      s2.nextSnapIndexToApply = s.nextSnapIndexToApply + 1 ∧
      ((s.numberOfDeltaSnapApplied + 1) % periodicallyMakeEtcdLeanDeltaSnapshotInterval = 0 ∨
          s.prevAttemptToMakeEtcdLeanFailed = true →
        s2.leanCalls = s.leanCalls ++ [(snaps.getD curr emptySnapshot).lastRevision] ∧
        s2.prevAttemptToMakeEtcdLeanFailed = !env.leanSucceeds curr) ∧
      (¬ ((s.numberOfDeltaSnapApplied + 1) % periodicallyMakeEtcdLeanDeltaSnapshotInterval = 0 ∨
          s.prevAttemptToMakeEtcdLeanFailed = true) →
        s2.leanCalls = s.leanCalls ∧
        s2.prevAttemptToMakeEtcdLeanFailed = s.prevAttemptToMakeEtcdLeanFailed) := by
  have hnotdone : ¬ ({ s with nextSnapIndexToApply := s.nextSnapIndexToApply + 1
      : ApplySnapsState }).nextSnapIndexToApply = snaps.length := by
    simpa using hnonfinal
  by_cases hlean : (s.numberOfDeltaSnapApplied + 1) %
      periodicallyMakeEtcdLeanDeltaSnapshotInterval = 0 ∨
      s.prevAttemptToMakeEtcdLeanFailed = true
  · by_cases hls : env.leanSucceeds curr
    · refine ⟨{ s with
        nextSnapIndexToApply := s.nextSnapIndexToApply + 1,
        numberOfDeltaSnapApplied := s.numberOfDeltaSnapApplied + 1,
        leanCalls := s.leanCalls ++ [(snaps.getD curr emptySnapshot).lastRevision],
        prevAttemptToMakeEtcdLeanFailed := false }, ?_, rfl, rfl, ?_, ?_⟩
      · rw [applyLoopGo, if_pos hcur, if_neg hpath]
        simp only [hread, happly]
        rw [if_neg hnotdone, if_pos (by simpa using hlean), if_pos hls]
      · intro _
        exact ⟨rfl, by simp [hls]⟩
      · intro h
        exact absurd hlean h
    · refine ⟨{ s with
        nextSnapIndexToApply := s.nextSnapIndexToApply + 1,
        numberOfDeltaSnapApplied := s.numberOfDeltaSnapApplied + 1,
        leanCalls := s.leanCalls ++ [(snaps.getD curr emptySnapshot).lastRevision],
        prevAttemptToMakeEtcdLeanFailed := true }, ?_, rfl, rfl, ?_, ?_⟩
      · rw [applyLoopGo, if_pos hcur, if_neg hpath]
        simp only [hread, happly]
        rw [if_neg hnotdone, if_pos (by simpa using hlean),
          if_neg (by simpa using hls)]
      · intro _
        refine ⟨rfl, ?_⟩
        simp [Bool.eq_false_iff.mpr hls]
      · intro h
        exact absurd hlean h
  · refine ⟨{ s with
      nextSnapIndexToApply := s.nextSnapIndexToApply + 1,
      numberOfDeltaSnapApplied := s.numberOfDeltaSnapApplied + 1 }, ?_, rfl, rfl, ?_, ?_⟩
    · rw [applyLoopGo, if_pos hcur, if_neg hpath]
      simp only [hread, happly]
      rw [if_neg hnotdone, if_neg (by simpa using hlean)]
    · intro h
      exact absurd h hlean
    · intro _
      exact ⟨rfl, rfl⟩

/-- The applier environment of the C7 witness: applying succeeds and
the lean call fails. -/
def applierEnvLeanFails : ApplierEnv :=
  ⟨fun _ => .ok [⟨0, "k", "v", 5⟩], fun _ => 5, fun _ => false⟩

/-- The applier state of the C7 witness: both paths buffered, counter at
9 so that the next application reaches the divisible-by-10 boundary. -/
def stateCounterNine : ApplySnapsState := ⟨["p", "q"], 0, 9, false, []⟩

/-- Witness for the amended C7 theorem at a concrete state where the
incremented counter reaches 10 and the lean call fails. -/
theorem applySnaps_leanKeeper_witness :
    ∃ s2, applyLoopGo applierEnvLeanFails snapsTwo 1 0 stateCounterNine =
        applyLoopGo applierEnvLeanFails snapsTwo 0 1 s2 ∧
      s2.numberOfDeltaSnapApplied = stateCounterNine.numberOfDeltaSnapApplied + 1 ∧
      s2.nextSnapIndexToApply = stateCounterNine.nextSnapIndexToApply + 1 ∧
      ((stateCounterNine.numberOfDeltaSnapApplied + 1) %
          periodicallyMakeEtcdLeanDeltaSnapshotInterval = 0 ∨
          stateCounterNine.prevAttemptToMakeEtcdLeanFailed = true →
        s2.leanCalls = stateCounterNine.leanCalls ++
          [(snapsTwo.getD 0 emptySnapshot).lastRevision] ∧
        s2.prevAttemptToMakeEtcdLeanFailed = !applierEnvLeanFails.leanSucceeds 0) ∧
      (¬ ((stateCounterNine.numberOfDeltaSnapApplied + 1) %
          periodicallyMakeEtcdLeanDeltaSnapshotInterval = 0 ∨
          stateCounterNine.prevAttemptToMakeEtcdLeanFailed = true) →
        s2.leanCalls = stateCounterNine.leanCalls ∧
        s2.prevAttemptToMakeEtcdLeanFailed = stateCounterNine.prevAttemptToMakeEtcdLeanFailed) :=
  applySnaps_leanKeeper applierEnvLeanFails snapsTwo 0 0 stateCounterNine
    [⟨0, "k", "v", 5⟩] (by decide) (by decide) (by rfl) (by rfl) (by decide)

/-! ## readSnapshotContentsFromReadCloser (claim C4)

The reader first passes the stream through the decompressor when the
snapshot compressionSuffix names a compression policy (an external
collaborator), then reads everything into a buffer; the embedding takes
the resulting byte buffer.  The buffer must exceed the 32-byte SHA-256
size; it splits into payload and trailing hash, the hash is recomputed
over the payload and compared, and on success exactly the payload is
returned. -/

/-- The integrity check of readSnapshotContentsFromReadCloser on the
(decompressed) byte buffer. -/
def readSnapshotContents (buf : List Nat) : Except String (List Nat) :=
  if buf.length ≤ 32 then .error "delta snapshot is missing hash"
  else
    if buf.drop (buf.length - 32) = sha256 (buf.take (buf.length - 32)) then
      .ok (buf.take (buf.length - 32))
    else .error "expected sha256 does not match the computed sha256"

/-- C4: for every delta blob buffer (after optional decompression), the
reader fails when the total length is at most 32 bytes; otherwise it
splits the buffer into payload and trailing 32-byte hash, fails exactly
when the recomputed SHA-256 of the payload differs from the trailing
hash, and on success returns exactly the payload. -/
theorem readSnapshotContents_integrity (buf : List Nat) :
    (buf.length ≤ 32 → readSnapshotContents buf = .error "delta snapshot is missing hash") ∧
    (32 < buf.length → sha256 (buf.take (buf.length - 32)) = buf.drop (buf.length - 32) →
      readSnapshotContents buf = .ok (buf.take (buf.length - 32))) ∧
    (32 < buf.length → sha256 (buf.take (buf.length - 32)) ≠ buf.drop (buf.length - 32) →
      ∃ m, readSnapshotContents buf = .error m) := by
  refine ⟨?_, ?_, ?_⟩
  · intro h
    rw [readSnapshotContents, if_pos h]
  · intro h hmatch
    rw [readSnapshotContents, if_neg (by omega), if_pos hmatch.symm]
  · intro h hmiss
    refine ⟨"expected sha256 does not match the computed sha256", ?_⟩
    rw [readSnapshotContents, if_neg (by omega), if_neg (fun hh => hmiss hh.symm)]

/-- The payload bytes of the C4 witness blob. -/
def payloadBytes : List Nat := [97, 98, 99]

/-- The C4 witness blob: a payload followed by its SHA-256. -/
def blobWithHash : List Nat := payloadBytes ++ sha256 payloadBytes

/-- Witness for C4: on a concrete 35-byte blob whose trailing 32 bytes
are the SHA-256 of its payload, the reader returns exactly the payload. -/
theorem readSnapshotContents_integrity_witness :
    32 < blobWithHash.length ∧
    readSnapshotContents blobWithHash = .ok (blobWithHash.take (blobWithHash.length - 32)) :=
  ⟨by decide,
    (readSnapshotContents_integrity blobWithHash).2.1 (by decide) (by decide)⟩

/-! ## fetchSnaps (claim C6)

The body of the fetcher loop for one FetcherInfo message.  The store
fetch and the persisting of the raw delta snapshot are external I/O;
their outcomes enter as fetchErr and persistErr (none meaning success,
and persistErr describing whatever persistRawDeltaSnapshot returns when
invoked after the fetch, which the code does even when the fetch itself
failed).  The embedding records every message the body sends: on the
error channel, on the applier channel, and on the snapshot-locations
channel. -/

/-- The messages emitted by one iteration of fetchSnaps. -/
structure FetchOutcome where
  errMsgs : List String
  applierMsgs : List ApplierInfo
  snapLocations : List String
deriving DecidableEq

/-- One iteration of fetchSnaps on a FetcherInfo: a failed fetch emits
an error and a sentinel ApplierInfo, a failed persist emits an error and
a sentinel, and the iteration then (unconditionally, there being no
early continue) emits the temp path on the locations channel and a
normal ApplierInfo carrying the path and index. -/
def fetchSnapsOne (fetchErr persistErr : Option String) (tempDir : String) (snap : Snapshot)
    (snapIndex : Int) : FetchOutcome :=
  ⟨(match fetchErr with
    | some e => ["failed to fetch delta snapshot " ++ snap.snapName ++ " from store : " ++ e]
    | none => []) ++
   (match persistErr with
    | some e => ["failed to persist delta snapshot " ++ snap.snapName ++ " : " ++ e]
    | none => []),
   (match fetchErr with
    | some _ => [⟨"", -1⟩]
    | none => []) ++
   (match persistErr with
    | some _ => [⟨"", -1⟩]
    | none => []) ++
   [⟨tempDir ++ "/" ++ snap.snapName, snapIndex⟩],
   [tempDir ++ "/" ++ snap.snapName]⟩

/-- C6, divergence record: on a failed fetch the claim (and the spec)
say the fetcher emits exactly one error and one sentinel and nothing
else for that delta; the code, lacking an early continue after the error
branch, goes on to call persistRawDeltaSnapshot on the reader of the
failed fetch and still emits the temp path on the locations channel and
a normal ApplierInfo carrying the path and the real index.  Evaluating
the fetcher body at a failed fetch of delta index 4 shows the extra
messages. -/
theorem fetchSnaps_error_fallthrough :
    fetchSnapsOne (some "network error") none "tmp" ⟨"d", "inc5", 8, 9, ""⟩ 4 =
      ⟨["failed to fetch delta snapshot inc5 from store : network error"],
       [⟨"", -1⟩, ⟨"tmp/inc5", 4⟩],
       ["tmp/inc5"]⟩ := by
  decide

/-! ## MakeEtcdLeanAndCheckAlarm (claim C8)

The compact call, the status query and the defragment handshake are
external interactions: compactResult and statusResult carry their
outcomes and disarm k the k-th bool received on the disarm channel.
Go computes the threshold in float64 arithmetic
(thresholdPercentageForDBSizeAlarm = 80.0/100.0 times the quota cast
from int64); the embedding uses exact rational arithmetic, which agrees
with the float comparison for every int64 database size whenever the
quota is below 2^53 bytes.  The result records the endpoints sent on the
alarm channel alongside success or failure. -/

/-- The db-size fields of the etcd maintenance status reply. -/
structure EtcdStatusModel where
  dbSize : Int
  dbSizeInUse : Int
deriving DecidableEq

/-- External outcomes consumed by MakeEtcdLeanAndCheckAlarm. -/
structure LeanKeeperEnv where
  compactResult : Except String Unit
  statusResult : Except String EtcdStatusModel
  disarm : Nat → Bool

/-- The db-size alarm threshold fraction of the quota. -/
def thresholdPercentageForDBSizeAlarm : ℚ := 80 / 100

/-- The per-endpoint alarm loop: each endpoint is sent on the alarm
channel, then a bool is awaited on the disarm channel; false aborts with
the disalarm failure, true proceeds to the next endpoint.  Returns the
endpoints sent and the overall outcome. -/
def alarmLoop (disarm : Nat → Bool) : List String → Nat → List String × Except String Unit
  | [], _ => ([], .ok ())
  | ep :: rest, k =>
    if disarm k then
      ((alarmLoop disarm rest (k + 1)).1.cons ep, (alarmLoop disarm rest (k + 1)).2)
    else ([ep], .error "failed to disalarm the embedded etcd dbSize alarm")

/-- MakeEtcdLeanAndCheckAlarm compacts at the revision, queries the
status of the first endpoint, and raises the db-size alarm when
DbSizeInUse or DbSize exceeds the threshold fraction of the quota; the
first component records the endpoints sent on the alarm channel. -/
def MakeEtcdLeanAndCheckAlarm (env : LeanKeeperEnv) (revision : Int) (endPoints : List String)
    (embeddedEtcdQuotaBytes : ℚ) : List String × Except String Unit :=
  match env.compactResult with
  | .error e => ([], .error ("compact API call failed: " ++ e))
  | .ok _ =>
    match env.statusResult with
    | .error e => ([], .error ("unable to check embedded etcd status: " ++ e))
    | .ok status =>
      if (status.dbSizeInUse : ℚ) > thresholdPercentageForDBSizeAlarm * embeddedEtcdQuotaBytes ∨
          (status.dbSize : ℚ) > thresholdPercentageForDBSizeAlarm * embeddedEtcdQuotaBytes then
        alarmLoop env.disarm endPoints 0
      else ([], .ok ())

/-- When every disarm reply is true the alarm loop walks all endpoints
and succeeds. -/
theorem alarmLoop_all_true (disarm : Nat → Bool) :
    ∀ (eps : List String) (k : Nat),
    (∀ j, j < eps.length → disarm (k + j) = true) →
    alarmLoop disarm eps k = (eps, .ok ()) := by
  intro eps
  induction eps with
  | nil => intro k _; rfl
  | cons ep rest ih =>
    intro k hall
    have h0 : disarm k = true := by simpa using hall 0 (by simp)
    rw [alarmLoop, if_pos h0]
    have hrest : ∀ j, j < rest.length → disarm (k + 1 + j) = true := by
      intro j hj
      have := hall (j + 1) (by simpa using Nat.succ_lt_succ hj)
      simpa [Nat.add_assoc, Nat.add_comm 1 j] using this
    rw [ih (k + 1) hrest]

/-- When the first false disarm reply arrives at offset j the alarm loop
sends the first j + 1 endpoints and fails with the disalarm error. -/
theorem alarmLoop_first_false (disarm : Nat → Bool) :
    ∀ (eps : List String) (k j : Nat),
    j < eps.length →
    disarm (k + j) = false →
    (∀ i, i < j → disarm (k + i) = true) →
    alarmLoop disarm eps k =
      (eps.take (j + 1), .error "failed to disalarm the embedded etcd dbSize alarm") := by
  intro eps
  induction eps with
  | nil => intro k j hj _ _; simp at hj
  | cons ep rest ih =>
    intro k j hj hfalse hprev
    cases j with
    | zero =>
      simp at hfalse
      rw [alarmLoop, if_neg (by simp [hfalse])]
      simp
    | succ j2 =>
      have h0 : disarm k = true := by simpa using hprev 0 (Nat.succ_pos j2)
      rw [alarmLoop, if_pos h0]
      have hj2 : j2 < rest.length := by simpa [Nat.succ_lt_succ_iff] using hj
      have hfalse2 : disarm (k + 1 + j2) = false := by
        simpa [Nat.add_assoc, Nat.add_comm 1 j2] using hfalse
      have hprev2 : ∀ i, i < j2 → disarm (k + 1 + i) = true := by
        intro i hi
        have := hprev (i + 1) (Nat.succ_lt_succ hi)
        simpa [Nat.add_assoc, Nat.add_comm 1 i] using this
      rw [ih (k + 1) j2 hj2 hfalse2 hprev2]
      simp

/-- C8: MakeEtcdLeanAndCheckAlarm compacts at the given revision and
raises the db-size alarm exactly when DbSizeInUse or DbSize exceeds
0.80 times the quota: above the threshold each endpoint is sent on the
alarm channel and a bool awaited on the disarm channel, a false reply
failing the call and true replies letting it proceed through all
endpoints; below the threshold no alarm is sent and the call succeeds. -/
theorem makeEtcdLean_alarm_spec (env : LeanKeeperEnv) (revision : Int)
    (endPoints : List String) (quota : ℚ) (status : EtcdStatusModel)
    (hcompact : env.compactResult = .ok ())
    (hstatus : env.statusResult = .ok status) :
    (¬ ((status.dbSizeInUse : ℚ) > thresholdPercentageForDBSizeAlarm * quota ∨
        (status.dbSize : ℚ) > thresholdPercentageForDBSizeAlarm * quota) →
      MakeEtcdLeanAndCheckAlarm env revision endPoints quota = ([], .ok ())) ∧
    (((status.dbSizeInUse : ℚ) > thresholdPercentageForDBSizeAlarm * quota ∨
        (status.dbSize : ℚ) > thresholdPercentageForDBSizeAlarm * quota) →
      (∀ j, j < endPoints.length → env.disarm j = true) →
      MakeEtcdLeanAndCheckAlarm env revision endPoints quota = (endPoints, .ok ())) ∧
    (((status.dbSizeInUse : ℚ) > thresholdPercentageForDBSizeAlarm * quota ∨
        (status.dbSize : ℚ) > thresholdPercentageForDBSizeAlarm * quota) →
      ∀ j, j < endPoints.length → env.disarm j = false →
      (∀ i, i < j → env.disarm i = true) →
      MakeEtcdLeanAndCheckAlarm env revision endPoints quota =
        (endPoints.take (j + 1),
          .error "failed to disalarm the embedded etcd dbSize alarm")) := by
  refine ⟨?_, ?_, ?_⟩
  · intro hbelow
    rw [MakeEtcdLeanAndCheckAlarm]
    simp only [hcompact, hstatus]
    rw [if_neg hbelow]
  · intro habove hall
    rw [MakeEtcdLeanAndCheckAlarm]
    simp only [hcompact, hstatus]
    rw [if_pos habove, alarmLoop_all_true env.disarm endPoints 0 (by simpa using hall)]
  · intro habove j hj hfalse hprev
    rw [MakeEtcdLeanAndCheckAlarm]
    simp only [hcompact, hstatus]
    rw [if_pos habove,
      alarmLoop_first_false env.disarm endPoints 0 j hj (by simpa using hfalse)
        (by simpa using hprev)]

/-- The lean-keeper environment of the C8 witness: compaction and status
succeed, the database uses 9 of 10 quota bytes, and every disarm reply
is true. -/
def leanKeeperEnvAbove : LeanKeeperEnv :=
  ⟨.ok (), .ok ⟨9, 9⟩, fun _ => true⟩

/-- Witness for C8: with sizes above the 80 percent threshold of a quota
of 10 and true disarm replies, both endpoints are sent on the alarm
channel and the call succeeds. -/
theorem makeEtcdLean_alarm_spec_witness :
    MakeEtcdLeanAndCheckAlarm leanKeeperEnvAbove 7 ["e1", "e2"] 10 = (["e1", "e2"], .ok ()) :=
  (makeEtcdLean_alarm_spec leanKeeperEnvAbove 7 ["e1", "e2"] 10 ⟨9, 9⟩ rfl rfl).2.1
    (by norm_num [thresholdPercentageForDBSizeAlarm]) (by intro j _; rfl)

/-! ## Restore orchestration (claim C9)

The orchestrator creates the temp directory, restores from the base
snapshot, and only when the delta snapshot list is nonempty starts the
embedded etcd and proceeds to delta application and the optional member
peer-URL update.  The external steps enter through RestoreEnv; the
outcome records whether the embedded etcd launcher was ever invoked,
whether a (non-nil) etcd handle is returned, and the returned error. -/

/-- External outcomes consumed by Restore. -/
structure RestoreEnv where
  mkdirResult : Except String Unit
  baseRestoreResult : Except String Unit
  startEtcdResult : Except String Unit
  applyDeltasResult : Except String Unit
  memberUpdateResult : Except String Unit

/-- The observable outcome of Restore. -/
structure RestoreOutcome where
  etcdStarted : Bool
  returnsEtcdHandle : Bool
  err : Option String
deriving DecidableEq

/-- The control flow of Restore over the delta snapshot list. -/
def Restore (env : RestoreEnv) (deltaSnapList : List Snapshot) (hasMemberControl : Bool) :
    RestoreOutcome :=
  match env.mkdirResult with
  | .error e => ⟨false, false, some e⟩
  | .ok _ =>
    match env.baseRestoreResult with
    | .error e => ⟨false, false, some ("failed to restore from the base snapshot: " ++ e)⟩
    | .ok _ =>
      if deltaSnapList.length = 0 then ⟨false, false, none⟩
      else
        match env.startEtcdResult with
        | .error e => ⟨true, false, some e⟩
        | .ok _ =>
          match env.applyDeltasResult with
          | .error e => ⟨true, true, some e⟩
          | .ok _ =>
            if hasMemberControl then
              match env.memberUpdateResult with
              | .error e => ⟨true, true, some e⟩
              | .ok _ => ⟨true, true, none⟩
            else ⟨true, true, none⟩

/-- C9: with an empty DeltaSnapList, after a successful base
restoration, Restore returns no etcd handle and no error and the
transient embedded etcd is never started. -/
theorem restore_no_deltas (env : RestoreEnv) (hasMemberControl : Bool)
    (hmkdir : env.mkdirResult = .ok ()) (hbase : env.baseRestoreResult = .ok ()) :
    Restore env [] hasMemberControl = ⟨false, false, none⟩ := by
  rw [Restore]
  simp only [hmkdir, hbase]
  rfl

/-- The restore environment of the C9 witness: directory creation and
base restoration succeed. -/
def restoreEnvBaseOk : RestoreEnv := ⟨.ok (), .ok (), .ok (), .ok (), .ok ()⟩

/-- Witness for C9 at a concrete environment. -/
theorem restore_no_deltas_witness :
    Restore restoreEnvBaseOk [] true = ⟨false, false, none⟩ :=
  restore_no_deltas restoreEnvBaseOk true rfl rfl

/-! ## RestorationConfig.Validate (claim C10)

The initial-cluster URL map and the peer URL list are parsed by the
etcd types library and the path normalisation is the Go standard
library path.Clean; both are external to the repository and enter the
embedding as functions of the environment.  Validate returns the
(possibly mutated) config together with the error: the Go method
mutates its receiver only after every check has passed. -/

/-- The restoration configuration. -/
structure RestorationConfig where
  initialCluster : String
  initialClusterToken : String
  dataDir : String
  tempSnapshotsDir : String
  name : String
  autoCompactionRetention : String
  autoCompactionMode : String
  initialAdvertisePeerURLs : List String
  maxTxnOps : Nat
  maxRequestBytes : Nat
  maxCallSendMsgSize : Int
  embeddedEtcdQuotaBytes : Int
  maxFetchers : Nat
  skipHashCheck : Bool
deriving DecidableEq

/-- External parsers and the path normalisation used by Validate. -/
structure ValidateEnv where
  urlsMapOk : String → Bool
  urlsOk : List String → Bool
  pathClean : String → String

/-- Validate checks the config and, only when every check passes,
normalises DataDir and TempSnapshotsDir with path.Clean; the returned
pair is the resulting config and the error. -/
def RestorationConfig.Validate (env : ValidateEnv) (c : RestorationConfig) :
    RestorationConfig × Option String :=
  if env.urlsMapOk c.initialCluster = false then
    (c, some "failed creating url map for restore cluster")
  else if env.urlsOk c.initialAdvertisePeerURLs = false then
    (c, some "failed parsing peers urls for restore cluster")
  else if c.maxCallSendMsgSize ≤ 0 then
    (c, some "max call send message should be greater than zero")
  else if c.maxFetchers ≤ 0 then
    (c, some "max fetchers should be greater than zero")
  else if c.embeddedEtcdQuotaBytes ≤ 0 then
    (c, some "etcd quota size for etcd must be greater than 0")
  else if c.autoCompactionMode ≠ "periodic" ∧ c.autoCompactionMode ≠ "revision" then
    (c, some "UnSupported auto-compaction-mode")
  else
    ({ c with
        dataDir := env.pathClean c.dataDir,
        tempSnapshotsDir := env.pathClean c.tempSnapshotsDir }, none)

/-- C10: when Validate returns nil it has replaced DataDir and
TempSnapshotsDir with their path.Clean normalisations and left every
other field unchanged; when it returns an error, no field is modified. -/
theorem RestorationConfig.Validate_frame (env : ValidateEnv) (c : RestorationConfig) :
    ((RestorationConfig.Validate env c).2 = none →
      (RestorationConfig.Validate env c).1 =
        { c with
            dataDir := env.pathClean c.dataDir,
            tempSnapshotsDir := env.pathClean c.tempSnapshotsDir }) ∧
    ((RestorationConfig.Validate env c).2 ≠ none →
      (RestorationConfig.Validate env c).1 = c) := by
  rw [RestorationConfig.Validate]
  split_ifs <;> simp

/-- The validation environment of the C10 witness: both parsers accept
and path.Clean strips a trailing slash segment. -/
def validateEnvOk : ValidateEnv :=
  ⟨fun _ => true, fun _ => true, fun s => if s = "out/" then "out" else s⟩

/-- The config of the C10 witness. -/
def configWitness : RestorationConfig :=
  ⟨"default=http://localhost:2380", "etcd-cluster", "out/", "tmp", "default", "30m",
    "periodic", ["http://localhost:2380"], 10240, 10485760, 10485760, 8589934592, 6, false⟩

/-- Witness for C10 at a concrete environment and config. -/
theorem RestorationConfig.Validate_frame_witness :
    ((RestorationConfig.Validate validateEnvOk configWitness).2 = none →
      (RestorationConfig.Validate validateEnvOk configWitness).1 =
        { configWitness with
            dataDir := validateEnvOk.pathClean configWitness.dataDir,
            tempSnapshotsDir := validateEnvOk.pathClean configWitness.tempSnapshotsDir }) ∧
    ((RestorationConfig.Validate validateEnvOk configWitness).2 ≠ none →
      (RestorationConfig.Validate validateEnvOk configWitness).1 = configWitness) :=
  RestorationConfig.Validate_frame validateEnvOk configWitness

end EtcdBR
